import Mathlib

/-!
Verification of the security-group-to-services mapper (`services.py`,
`map_security_groups_to_services.py`).

Python values are embedded shallowly: boto3 response dicts become Lean
structures whose field names are the exact response keys the code reads;
a key guarded by an `in keys()` check becomes an `Option` field; Python
dicts used as insertion-ordered maps become association lists; Python
sets of service classes become duplicate-free insertion-ordered lists;
`while` loops that are not structurally terminating take a fuel
parameter and return `none` when the fuel runs out.
-/

namespace SGMap

/-- Character-list test: does `needle` occur at the head of `hay`? -/
def startsWithChars : List Char → List Char → Bool
  | [], _ => true
  | _ :: _, [] => false
  | a :: as, b :: bs => a == b && startsWithChars as bs

/-- Character-list test: does `needle` occur contiguously anywhere in `hay`? -/
def occursInChars (needle : List Char) : List Char → Bool
  | [] => startsWithChars needle []
  | b :: bs => startsWithChars needle (b :: bs) || occursInChars needle bs

/-- Python's `needle in hay` substring test on strings. -/
def strContains (hay needle : String) : Bool :=
  occursInChars needle.data hay.data

/-- The nine regional service classes of `services.py`
(`EC2` plus the `NonLookupableRegionalService` subclasses). -/
inductive ServiceType where
  | EC2
  | ECS
  | ALB
  | RDS
  | Redshift
  | Lambda
  | ElastiCache
  | DMS
  | EMR
  deriving DecidableEq, Repr, Fintype

/-- One entry of a network interface's `Groups` list. -/
structure GroupRef where
  GroupName : String
  deriving DecidableEq, Repr

/-- The `Attachment` sub-dict of a network interface; `InstanceId` is read
behind an `in keys()` check, hence `Option`. -/
structure NIAttachment where
  InstanceId : Option String
  deriving DecidableEq, Repr

/-- A network interface record as read by
`EC2.get_service_types_from_network_interfaces`: the keys `InterfaceType`,
`Description` and `Groups` are read unconditionally, `Attachment` behind an
`in keys()` check. -/
structure NetworkInterface where
  InterfaceType : String
  Description : String
  Groups : List GroupRef
  Attachment : Option NIAttachment
  deriving DecidableEq, Repr

/-- Python `set.add` on a set modelled as a duplicate-free
insertion-ordered list. -/
def setAdd (s : List ServiceType) (x : ServiceType) : List ServiceType :=
  if x ∈ s then s else s ++ [x]

/-- The per-interface body of the `if`/`elif` cascade of
`EC2.get_service_types_from_network_interfaces` (services.py lines
419-453): the first matching branch names the service added to the set;
no matching branch adds nothing (`none`). -/
def classify_interface (ni : NetworkInterface) : Option ServiceType :=
  let instance_id := ni.Attachment.bind (fun a => a.InstanceId)
  if ni.InterfaceType == "lambda" then
    some ServiceType.Lambda
  else if ni.Groups.any (fun security_group =>
      strContains security_group.GroupName "ElasticMapReduce") then
    some ServiceType.EMR
  else if instance_id.isSome then
    some ServiceType.EC2
  else if strContains ni.Description "arn:aws:ecs" then
    some ServiceType.ECS
  else if strContains ni.Description "ELB app" then
    some ServiceType.ALB
  else if strContains ni.Description "RDSNetworkInterface" then
    some ServiceType.RDS
  else if strContains ni.Description "DMSNetworkInterface" then
    some ServiceType.DMS
  else if strContains ni.Description "RedshiftNetworkInterface" then
    some ServiceType.Redshift
  else if strContains ni.Description "ElastiCache" then
    some ServiceType.ElastiCache
  else
    none

/-- `EC2.get_service_types_from_network_interfaces` (services.py lines
403-455): fold the cascade over the interface list, accumulating into
one set. -/
def get_service_types_from_network_interfaces
    (network_interface_jsons : List NetworkInterface) : List ServiceType :=
  network_interface_jsons.foldl
    (fun services_to_lookup network_interface_json =>
      match classify_interface network_interface_json with
      | some s => setAdd services_to_lookup s
      | none => services_to_lookup)
    []

/-- The classification rule table exactly as the spec orders it
(spec section 4.3, rules 1-9), each rule a guard plus the service it
yields. -/
def classifierRules : List ((NetworkInterface → Bool) × ServiceType) :=
  [ (fun ni => ni.InterfaceType == "lambda", ServiceType.Lambda),
    (fun ni => ni.Groups.any (fun security_group =>
        strContains security_group.GroupName "ElasticMapReduce"), ServiceType.EMR),
    (fun ni => (ni.Attachment.bind (fun a => a.InstanceId)).isSome, ServiceType.EC2),
    (fun ni => strContains ni.Description "arn:aws:ecs", ServiceType.ECS),
    (fun ni => strContains ni.Description "ELB app", ServiceType.ALB),
    (fun ni => strContains ni.Description "RDSNetworkInterface", ServiceType.RDS),
    (fun ni => strContains ni.Description "DMSNetworkInterface", ServiceType.DMS),
    (fun ni => strContains ni.Description "RedshiftNetworkInterface", ServiceType.Redshift),
    (fun ni => strContains ni.Description "ElastiCache", ServiceType.ElastiCache) ]

/-- First-match semantics over the ordered rule table: the spec-side
statement of the classifier ("first match wins", rule 10 yields nothing). -/
def firstMatchClassifier (ni : NetworkInterface) : Option ServiceType :=
  classifierRules.findSome? (fun r => if r.1 ni then some r.2 else none)

theorem classify_interface_eq_firstMatch (ni : NetworkInterface) :
    classify_interface ni = firstMatchClassifier ni := by
  unfold classify_interface firstMatchClassifier classifierRules
  simp only [List.findSome?]
  cases h1 : ni.InterfaceType == "lambda" <;>
    simp only [h1, if_true, if_false, Bool.false_eq_true, ite_false, ite_true] <;>
  first
  | rfl
  | (cases h2 : ni.Groups.any (fun security_group =>
        strContains security_group.GroupName "ElasticMapReduce") <;>
      simp only [h2, Bool.false_eq_true, ite_false, ite_true] <;>
    first
    | rfl
    | (cases h3 : (ni.Attachment.bind (fun a => a.InstanceId)).isSome <;>
        simp only [h3, Bool.false_eq_true, ite_false, ite_true] <;>
      first
      | rfl
      | (cases h4 : strContains ni.Description "arn:aws:ecs" <;>
          simp only [h4, Bool.false_eq_true, ite_false, ite_true] <;>
        first
        | rfl
        | (cases h5 : strContains ni.Description "ELB app" <;>
            simp only [h5, Bool.false_eq_true, ite_false, ite_true] <;>
          first
          | rfl
          | (cases h6 : strContains ni.Description "RDSNetworkInterface" <;>
              simp only [h6, Bool.false_eq_true, ite_false, ite_true] <;>
            first
            | rfl
            | (cases h7 : strContains ni.Description "DMSNetworkInterface" <;>
                simp only [h7, Bool.false_eq_true, ite_false, ite_true] <;>
              first
              | rfl
              | (cases h8 : strContains ni.Description "RedshiftNetworkInterface" <;>
                  simp only [h8, Bool.false_eq_true, ite_false, ite_true] <;>
                first
                | rfl
                | (cases h9 : strContains ni.Description "ElastiCache" <;>
                    simp only [h9, Bool.false_eq_true, ite_false, ite_true] <;> rfl))))))))

/-- C1: for a one-element interface list the classifier yields zero or one
ServiceType, namely exactly the result of the first matching rule of the
ordered rule table (Lambda, EMR, EC2, ECS, ALB, RDS, DMS, Redshift,
ElastiCache), and yields the empty set, not an error, when no rule
matches. -/
theorem classifier_single_interface_first_match (ni : NetworkInterface) :
    get_service_types_from_network_interfaces [ni] = (firstMatchClassifier ni).toList ∧
    (get_service_types_from_network_interfaces [ni]).length ≤ 1 := by
  have h : get_service_types_from_network_interfaces [ni] =
      (classify_interface ni).toList := by
    unfold get_service_types_from_network_interfaces
    cases h : classify_interface ni <;> simp [h, setAdd]
  rw [h, classify_interface_eq_firstMatch]
  refine ⟨rfl, ?_⟩
  cases firstMatchClassifier ni <;> simp

/-! ## The per-service index (`_services_by_security_group_id`)

A Python dict used as an insertion-ordered map from security-group ID to
the list of service records appended for it.  Modelled as an association
list: appending to an existing key's bucket keeps its position, a fresh
key goes to the end, exactly the
`if security_group not in dict: dict[g] = [service] else: dict[g].append(service)`
pattern shared by every `load_services`. -/

abbrev Index (α : Type) := List (String × List α)

/-- Dict lookup: first (unique) entry whose key matches. -/
def indexLookup {α : Type} : Index α → String → Option (List α)
  | [], _ => none
  | (k, v) :: rest, g => if k = g then some v else indexLookup rest g

/-- The append-or-create step of every `load_services` bucket pass. -/
def indexAdd {α : Type} : Index α → String → α → Index α
  | [], g, service => [(g, [service])]
  | (k, v) :: rest, g, service =>
      if k = g then (k, v ++ [service]) :: rest
      else (k, v) :: indexAdd rest g service

/-- `NonLookupableRegionalService.has_services` (services.py lines
526-528): the dict has at least one key. -/
def has_services {α : Type} (idx : Index α) : Bool := idx.length > 0

/-- The tail of `get_services_in_security_group` (services.py lines
519-524): a present key yields its bucket, an absent key yields `[]`,
never an error. -/
def index_get {α : Type} (idx : Index α) (security_group_id : String) : List α :=
  match indexLookup idx security_group_id with
  | some services => services
  | none => []

theorem indexLookup_indexAdd {α : Type} (idx : Index α) (g g' : String) (s : α) :
    indexLookup (indexAdd idx g s) g' =
      if g' = g then some ((indexLookup idx g).getD [] ++ [s])
      else indexLookup idx g' := by
  induction idx with
  | nil =>
      simp only [indexAdd, indexLookup]
      by_cases h : g' = g
      · subst h; simp
      · rw [if_neg (fun hh => h hh.symm), if_neg h]
  | cons p rest ih =>
      obtain ⟨k, v⟩ := p
      simp only [indexAdd]
      by_cases hk : k = g
      · subst hk
        rw [if_pos rfl]
        simp only [indexLookup]
        by_cases h : g' = k
        · subst h; simp
        · have h' : ¬k = g' := fun hh => h hh.symm
          simp [h, h']
      · rw [if_neg hk]
        simp only [indexLookup, ih]
        by_cases h : g' = g
        · subst h; simp [hk]
        · simp [h]

/-- The inner loop of a bucket pass: append one service under every
security-group ID it references. -/
def addForKeys {α : Type} (keysOf : α → List String) (service : α)
    (idx : Index α) : Index α :=
  (keysOf service).foldl (fun idx security_group => indexAdd idx security_group service) idx

/-- The generic bucket pass shared by every `load_services`: services in
listing order, each appended under each of its security-group IDs. -/
def index_services_by {α : Type} (keysOf : α → List String)
    (services : List α) (idx : Index α) : Index α :=
  services.foldl (fun idx service => addForKeys keysOf service idx) idx

theorem indexLookup_addForKeys {α : Type} (keysOf : α → List String) (service : α)
    (idx : Index α) (g : String) (h : (keysOf service).Nodup) :
    (indexLookup (addForKeys keysOf service idx) g).getD [] =
      (indexLookup idx g).getD [] ++ (if g ∈ keysOf service then [service] else []) := by
  unfold addForKeys
  revert h
  generalize keysOf service = gs
  induction gs generalizing idx with
  | nil => intro _; simp
  | cons a as ih =>
      intro h
      simp only [List.foldl_cons]
      rw [ih _ (List.Nodup.of_cons h), indexLookup_indexAdd]
      by_cases hg : g = a
      · subst hg
        have hna : g ∉ as := (List.nodup_cons.mp h).1
        simp [hna]
      · by_cases hmem : g ∈ as <;> simp [hmem, hg]

theorem indexLookup_index_services_by {α : Type} (keysOf : α → List String)
    (services : List α) (idx : Index α) (g : String)
    (h : ∀ s ∈ services, (keysOf s).Nodup) :
    (indexLookup (index_services_by keysOf services idx) g).getD [] =
      (indexLookup idx g).getD [] ++
        (services.filter (fun s => decide (g ∈ keysOf s))) := by
  induction services generalizing idx with
  | nil => simp [index_services_by]
  | cons s ss ih =>
      simp only [index_services_by, List.foldl_cons] at *
      rw [ih _ (fun x hx => h x (List.mem_cons_of_mem s hx))]
      rw [indexLookup_addForKeys keysOf s idx g (h s (List.mem_cons_self s ss))]
      by_cases hmem : g ∈ keysOf s <;>
        simp [hmem, List.filter_cons, List.append_assoc]

/-- If every step with `p a = false` is the identity, a fold can drop
those elements. -/
theorem foldl_skip {α β : Type} (f : β → α → β) (p : α → Bool)
    (h : ∀ b a, p a = false → f b a = b) :
    ∀ (l : List α) (b : β), l.foldl f b = (l.filter p).foldl f b := by
  intro l
  induction l with
  | nil => intro b; rfl
  | cons a as ih =>
      intro b
      cases hp : p a with
      | false => simp [List.filter_cons, hp, h b a hp, ih]
      | true => simp [List.filter_cons, hp, ih]

/-! ## Listed resource records, one structure per service type

Field names are the response keys each `load_services` reads; a key read
behind an `in keys()` check is an `Option` field. -/

/-- One load balancer from `describe_load_balancers` as read by
`ALB.load_services` (services.py lines 705-716). -/
structure LoadBalancer where
  LoadBalancerName : String
  SecurityGroups : Option (List String)
  deriving DecidableEq, Repr

/-- One member of a `VpcSecurityGroups` list (RDS / Redshift / DMS). -/
structure VpcSecurityGroupMembership where
  VpcSecurityGroupId : String
  deriving DecidableEq, Repr

/-- One DB instance as read by `RDS.load_services` (services.py lines
767-778). -/
structure DBInstance where
  DBInstanceIdentifier : String
  VpcSecurityGroups : Option (List VpcSecurityGroupMembership)
  deriving DecidableEq, Repr

/-- One Redshift cluster as read by `Redshift.load_services` (services.py
lines 830-841). -/
structure RedshiftCluster where
  ClusterIdentifier : String
  VpcSecurityGroups : Option (List VpcSecurityGroupMembership)
  deriving DecidableEq, Repr

/-- The `VpcConfig` sub-dict of a Lambda function. -/
structure LambdaVpcConfig where
  SecurityGroupIds : List String
  deriving DecidableEq, Repr

/-- One function as read by `Lambda.load_services` (services.py lines
893-908). -/
structure LambdaFunction where
  FunctionName : String
  VpcConfig : Option LambdaVpcConfig
  deriving DecidableEq, Repr

/-- One member of an ElastiCache `SecurityGroups` list. -/
structure SecurityGroupMembership where
  SecurityGroupId : String
  deriving DecidableEq, Repr

/-- One cache cluster as read by `ElastiCache.load_services` (services.py
lines 961-977). -/
structure CacheCluster where
  CacheClusterId : String
  SecurityGroups : Option (List SecurityGroupMembership)
  deriving DecidableEq, Repr

/-- One replication instance as read by `DMS.load_services` (services.py
lines 1030-1046). -/
structure ReplicationInstance where
  ReplicationInstanceIdentifier : String
  VpcSecurityGroups : Option (List VpcSecurityGroupMembership)
  deriving DecidableEq, Repr

/-! ## Bucket passes: the `for service in services` half of each
`load_services`, run against the current dict. -/

/-- `ALB.load_services` bucket pass (services.py lines 705-716). -/
def alb_index_services (services : List LoadBalancer)
    (idx : Index LoadBalancer) : Index LoadBalancer :=
  services.foldl (fun idx service =>
    match service.SecurityGroups with
    | some security_groups =>
        security_groups.foldl
          (fun idx security_group => indexAdd idx security_group service) idx
    | none => idx) idx

/-- `RDS.load_services` bucket pass (services.py lines 767-778):
the key is each member's `VpcSecurityGroupId`. -/
def rds_index_services (services : List DBInstance)
    (idx : Index DBInstance) : Index DBInstance :=
  services.foldl (fun idx service =>
    match service.VpcSecurityGroups with
    | some security_groups =>
        security_groups.foldl
          (fun idx security_group =>
            indexAdd idx security_group.VpcSecurityGroupId service) idx
    | none => idx) idx

/-- `Redshift.load_services` bucket pass (services.py lines 830-841). -/
def redshift_index_services (services : List RedshiftCluster)
    (idx : Index RedshiftCluster) : Index RedshiftCluster :=
  services.foldl (fun idx service =>
    match service.VpcSecurityGroups with
    | some security_groups =>
        security_groups.foldl
          (fun idx security_group =>
            indexAdd idx security_group.VpcSecurityGroupId service) idx
    | none => idx) idx

/-- `Lambda.load_services` bucket pass (services.py lines 893-908). -/
def lambda_index_services (services : List LambdaFunction)
    (idx : Index LambdaFunction) : Index LambdaFunction :=
  services.foldl (fun idx service =>
    match service.VpcConfig with
    | some vpc_config =>
        vpc_config.SecurityGroupIds.foldl
          (fun idx security_group_id => indexAdd idx security_group_id service) idx
    | none => idx) idx

/-- `ElastiCache.load_services` bucket pass (services.py lines 961-977):
the key is each member's `SecurityGroupId`. -/
def elasticache_index_services (services : List CacheCluster)
    (idx : Index CacheCluster) : Index CacheCluster :=
  services.foldl (fun idx service =>
    match service.SecurityGroups with
    | some security_groups =>
        security_groups.foldl
          (fun idx security_group =>
            indexAdd idx security_group.SecurityGroupId service) idx
    | none => idx) idx

/-- `DMS.load_services` bucket pass (services.py lines 1030-1046). -/
def dms_index_services (services : List ReplicationInstance)
    (idx : Index ReplicationInstance) : Index ReplicationInstance :=
  services.foldl (fun idx service =>
    match service.VpcSecurityGroups with
    | some security_groups =>
        security_groups.foldl
          (fun idx security_group =>
            indexAdd idx security_group.VpcSecurityGroupId service) idx
    | none => idx) idx

/-- Folds of pointwise-equal step functions agree. -/
theorem foldl_congr_step {α β : Type} (f g : β → α → β)
    (h : ∀ b a, f b a = g b a) :
    ∀ (l : List α) (b : β), l.foldl f b = l.foldl g b := by
  intro l
  induction l with
  | nil => intro b; rfl
  | cons a as ih => intro b; rw [List.foldl_cons, List.foldl_cons, h, ih]

theorem index_get_eq_getD {α : Type} (idx : Index α) (g : String) :
    index_get idx g = (indexLookup idx g).getD [] := by
  cases h : indexLookup idx g <;> simp [index_get, h]

/-- The ALB bucket pass is the generic pass with key list
`SecurityGroups` (empty when the key is absent). -/
theorem alb_index_services_eq_generic (services : List LoadBalancer)
    (idx : Index LoadBalancer) :
    alb_index_services services idx =
      index_services_by (fun s => s.SecurityGroups.getD []) services idx := by
  unfold alb_index_services index_services_by
  refine foldl_congr_step _ _ (fun b a => ?_) services idx
  cases hs : a.SecurityGroups <;> simp [addForKeys, hs]

/-- C7: after a single ALB load step over a listing whose resources each
carry duplicate-free security-group references, the index maps every
security-group ID to exactly the listed resources referencing it, in
listing order, and an ID referenced by no resource (filter empty, e.g. a
probe ID) yields the empty list rather than an error. -/
theorem index_buckets_filter (services : List LoadBalancer) (g : String)
    (h : ∀ s ∈ services, (s.SecurityGroups.getD []).Nodup) :
    index_get (alb_index_services services []) g =
      services.filter (fun s => decide (g ∈ s.SecurityGroups.getD [])) := by
  rw [index_get_eq_getD, alb_index_services_eq_generic,
    indexLookup_index_services_by (fun s => s.SecurityGroups.getD []) services [] g h]
  rfl

/-- The spec's synthetic resources A, B, C referencing
{sg-1, sg-2}, {sg-2} and {} respectively. -/
def albResourceA : LoadBalancer := ⟨"A", some ["sg-1", "sg-2"]⟩

def albResourceB : LoadBalancer := ⟨"B", some ["sg-2"]⟩

def albResourceC : LoadBalancer := ⟨"C", some []⟩

theorem index_buckets_filter_witness :
    index_get (alb_index_services [albResourceA, albResourceB, albResourceC] []) "sg-2" =
      [albResourceA, albResourceB, albResourceC].filter
        (fun s => decide ("sg-2" ∈ s.SecurityGroups.getD [])) :=
  index_buckets_filter [albResourceA, albResourceB, albResourceC] "sg-2" (by decide)

/-- C10: in every `IndexedLookup` bucket pass, a listed resource lacking
its security-group field (`SecurityGroups`, `VpcSecurityGroups` or
`VpcConfig` modelled as `none`) is skipped: the pass over any mix of
resources equals the pass over only the resources carrying the field, it
contributes no index entries, and the pass is total, so no error is
raised. -/
theorem missing_field_resources_skipped :
    (∀ (services : List LoadBalancer),
      alb_index_services services [] =
        alb_index_services (services.filter (fun s => s.SecurityGroups.isSome)) []) ∧
    (∀ (services : List DBInstance),
      rds_index_services services [] =
        rds_index_services (services.filter (fun s => s.VpcSecurityGroups.isSome)) []) ∧
    (∀ (services : List RedshiftCluster),
      redshift_index_services services [] =
        redshift_index_services (services.filter (fun s => s.VpcSecurityGroups.isSome)) []) ∧
    (∀ (services : List LambdaFunction),
      lambda_index_services services [] =
        lambda_index_services (services.filter (fun s => s.VpcConfig.isSome)) []) ∧
    (∀ (services : List CacheCluster),
      elasticache_index_services services [] =
        elasticache_index_services (services.filter (fun s => s.SecurityGroups.isSome)) []) ∧
    (∀ (services : List ReplicationInstance),
      dms_index_services services [] =
        dms_index_services (services.filter (fun s => s.VpcSecurityGroups.isSome)) []) := by
  refine ⟨fun services => ?_, fun services => ?_, fun services => ?_,
    fun services => ?_, fun services => ?_, fun services => ?_⟩ <;>
  · first
    | exact foldl_skip _ _ (fun b a ha => by
        cases hs : a.SecurityGroups with
        | none => simp [hs]
        | some gs => simp [hs] at ha) services []
    | exact foldl_skip _ _ (fun b a ha => by
        cases hs : a.VpcSecurityGroups with
        | none => simp [hs]
        | some gs => simp [hs] at ha) services []
    | exact foldl_skip _ _ (fun b a ha => by
        cases hs : a.VpcConfig with
        | none => simp [hs]
        | some vc => simp [hs] at ha) services []

/-! ## Lazy-lookup state machines for `NonLookupableRegionalService`

`get_services_in_security_group` (services.py lines 502-524) consults
`has_services` on the dict attribute `_services_by_security_group_id` and
runs `load_services` when it is empty.  `load_calls` is explicit
instrumentation counting full listing traversals (the spec's mock listing
call-counter); the source performs one AWS listing per `load_services`
call. -/

/-- Class state of ALB during a run: the index dict plus the traversal
counter. -/
structure ALBState where
  _services_by_security_group_id : Index LoadBalancer
  load_calls : Nat
  deriving DecidableEq, Repr

/-- `ALB.get_services_in_security_group`: lazily load (one full listing
traversal of `listing`), then look the group ID up in the dict. -/
def ALB_get_services_in_security_group (listing : List LoadBalancer)
    (st : ALBState) (security_group_id : String) :
    List LoadBalancer × ALBState :=
  let st :=
    if has_services st._services_by_security_group_id then st
    else
      { _services_by_security_group_id :=
          alb_index_services listing st._services_by_security_group_id,
        load_calls := st.load_calls + 1 }
  (index_get st._services_by_security_group_id security_group_id, st)

/-- A region with exactly one load balancer, referencing sg-1. -/
def albResourceD : LoadBalancer := ⟨"D", some ["sg-1"]⟩

/-- C6 fails on the code: (1) running the `ALB.load_services` bucket pass
twice without a region change duplicates every bucket entry
(sg-1 maps to [D, D], not [D]) because no built flag guards it, and
(2) in a region with zero resources, every
`get_services_in_security_group` call repeats the full listing traversal
(the emptiness test `has_services` never becomes true), so two lookups
perform two traversals, not at most one. -/
theorem index_build_not_idempotent :
    (alb_index_services [albResourceD] (alb_index_services [albResourceD] []) ≠
      alb_index_services [albResourceD] []) ∧
    index_get (alb_index_services [albResourceD]
      (alb_index_services [albResourceD] [])) "sg-1" = [albResourceD, albResourceD] ∧
    ((ALB_get_services_in_security_group []
        (ALB_get_services_in_security_group [] ⟨[], 0⟩ "sg-1").2 "sg-1").2.load_calls = 2) := by
  refine ⟨by decide, by decide, by decide⟩

/-- Class state of ElastiCache during a run.  The class dict read by
every lookup is the attribute `_services_by_security_group_id`; the
attribute `services_by_security_group_id` (no underscore) is the distinct
attribute that `NonLookupableRegionalService.set_client` (services.py
line 547) assigns `{}` to, shadowing the abstract property; it starts
unassigned (`none`).  `region` is the region the class client points
at. -/
structure ElastiCacheState where
  _services_by_security_group_id : Index CacheCluster
  services_by_security_group_id : Option (Index CacheCluster)
  region : String
  deriving DecidableEq, Repr

/-- `NonLookupableRegionalService.set_client` (services.py lines
530-547): re-point the client at `region`, then assign `{}` to
`cls.services_by_security_group_id` — not to the underscored dict the
lookups read. -/
def ElastiCache_set_client (st : ElastiCacheState) (region : String) :
    ElastiCacheState :=
  { st with region := region, services_by_security_group_id := some [] }

/-- `ElastiCache.get_services_in_security_group` with the region's
listing supplied per region (`listing st.region` is what
`describe_cache_clusters` returns against the current client). -/
def ElastiCache_get_services_in_security_group
    (listing : String → List CacheCluster) (st : ElastiCacheState)
    (security_group_id : String) : List CacheCluster × ElastiCacheState :=
  let st :=
    if has_services st._services_by_security_group_id then st
    else
      ElastiCacheState.mk
        (elasticache_index_services (listing st.region)
          st._services_by_security_group_id)
        st.services_by_security_group_id st.region
  (index_get st._services_by_security_group_id security_group_id, st)

/-- A cache cluster referencing sg-1, present only in eu-west-1. -/
def cacheClusterA : CacheCluster := ⟨"A", some [⟨"sg-1"⟩]⟩

/-- eu-west-1 has cacheClusterA; every other region has nothing. -/
def cacheListing (region : String) : List CacheCluster :=
  if region = "eu-west-1" then [cacheClusterA] else []

/-- State after building the index in eu-west-1 through a first lookup
for sg-1 there. -/
def stateAfterEuLookup : ElastiCacheState :=
  (ElastiCache_get_services_in_security_group cacheListing
    (ElastiCache_set_client ⟨[], none, ""⟩ "eu-west-1") "sg-1").2

/-- State after then re-pointing the client at us-east-1. -/
def stateSwitchedToUs : ElastiCacheState :=
  ElastiCache_set_client stateAfterEuLookup "us-east-1"

/-- C2 fails on the code: build the ElastiCache index in eu-west-1 via a
lookup for sg-1 (returns [A]), re-point at us-east-1 with `set_client`,
then look sg-1 up again: the code returns the stale [A] instead of the
empty list, and the dict the lookups read is untouched, so no fresh
us-east-1 build is triggered — `set_client` assigns `{}` to the
attribute `services_by_security_group_id` while the lookups read
`_services_by_security_group_id`. -/
theorem region_switch_returns_stale_index :
    (ElastiCache_get_services_in_security_group cacheListing
        stateSwitchedToUs "sg-1").1 = [cacheClusterA] ∧
    (ElastiCache_get_services_in_security_group cacheListing
        stateSwitchedToUs "sg-1").2._services_by_security_group_id =
      stateAfterEuLookup._services_by_security_group_id := by
  refine ⟨by decide, by decide⟩

/-! ## Pagination

Each paginated API is a page server: a function from the continuation
token passed (or `none` on the first call) to the page returned.  A page
is a structure whose fields are the response keys the code reads.
A Python runtime error surfaced by a loop body is an `Except.error`. -/

/-- Python runtime errors the pagination loops can raise. -/
inductive PyErr where
  | attributeError
  | keyError
  deriving DecidableEq, Repr

/-- One security group from `describe_security_groups`. -/
structure SecurityGroupRecord where
  GroupId : String
  GroupName : String
  deriving DecidableEq, Repr

/-- A `describe_security_groups` page: items under `SecurityGroups`,
continuation token under `NextToken` (the key the code checks). -/
structure SecurityGroupsPage where
  SecurityGroups : List SecurityGroupRecord
  NextToken : Option String
  deriving DecidableEq, Repr

/-- One EC2 instance from a reservation. -/
structure Ec2Instance where
  InstanceId : String
  deriving DecidableEq, Repr

/-- One reservation of a `describe_instances` page. -/
structure Reservation where
  Instances : List Ec2Instance
  deriving DecidableEq, Repr

/-- A `describe_instances` page: items under `Reservations`, continuation
token under `nextToken` (the key the code checks, lines 341-344). -/
structure InstancesPage where
  Reservations : List Reservation
  nextToken : Option String
  deriving DecidableEq, Repr

/-- `EC2.get_security_groups` (services.py lines 367-389).  The first
call uses `cls._client` and collects the page.  When that page carries a
`NextToken`, the `while` body evaluates
`cls.client.describe_security_groups(...)` (line 380) — `client`, not
`_client`, an attribute the class never defines — so entering the loop
raises AttributeError. -/
def EC2_get_security_groups (fetch : Option String → SecurityGroupsPage) :
    Except PyErr (List SecurityGroupRecord) :=
  let response := fetch none
  let security_groups := response.SecurityGroups
  match response.NextToken with
  | none => Except.ok security_groups
  | some _ => Except.error PyErr.attributeError

/-- `EC2.get_services_in_security_group` (services.py lines 332-364).
The first call collects `Reservations`.  When the page carries a
`nextToken`, the `while` body re-calls `describe_instances` with the
same filter and NO continuation token (lines 350-354), then subscripts
the response with the key `"reservations"` (line 361) — pages carry
their items under `Reservations` — so the first loop iteration raises
KeyError after one wasted re-fetch of the first page. -/
def EC2_get_services_in_security_group
    (fetch : Option String → InstancesPage) :
    Except PyErr (List Ec2Instance) :=
  let service_response := fetch none
  let instances := (service_response.Reservations.map (fun r => r.Instances)).join
  match service_response.nextToken with
  | none => Except.ok instances
  | some _ =>
      let _second_fetch := fetch none
      Except.error PyErr.keyError

/-- A 3-page `describe_security_groups` server: 2, 2 and 1 items, with
continuation tokens on the first two pages. -/
def sgPages3 (token : Option String) : SecurityGroupsPage :=
  if token = none then ⟨[⟨"sg-1", "a"⟩, ⟨"sg-2", "b"⟩], some "t1"⟩
  else if token = some "t1" then ⟨[⟨"sg-3", "c"⟩, ⟨"sg-4", "d"⟩], some "t2"⟩
  else ⟨[⟨"sg-5", "e"⟩], none⟩

/-- A 3-page `describe_instances` server: 2, 2 and 1 instances, with
continuation tokens on the first two pages. -/
def instPages3 (token : Option String) : InstancesPage :=
  if token = none then ⟨[⟨[⟨"i-1"⟩, ⟨"i-2"⟩]⟩], some "t1"⟩
  else if token = some "t1" then ⟨[⟨[⟨"i-3"⟩, ⟨"i-4"⟩]⟩], some "t2"⟩
  else ⟨[⟨[⟨"i-5"⟩]⟩], none⟩

/-- C3 fails on the code: on the 3-page servers (2, 2, 1 items, tokens on
the first two pages) neither cited collection routine returns the 5-item
concatenation after 3 fetches — `get_security_groups` raises
AttributeError entering its loop (`cls.client` is never defined) and
`get_services_in_security_group` raises KeyError in its first loop
iteration (it re-fetches page one without the token and then reads the
key "reservations", which pages do not carry).  Only a single tokenless
page is ever collected correctly. -/
theorem ec2_pagination_fails_on_multipage :
    EC2_get_security_groups sgPages3 = Except.error PyErr.attributeError ∧
    EC2_get_services_in_security_group instPages3 = Except.error PyErr.keyError ∧
    (∀ (sgs : List SecurityGroupRecord),
      EC2_get_security_groups (fun _ => ⟨sgs, none⟩) = Except.ok sgs) ∧
    (∀ (rs : List Reservation),
      EC2_get_services_in_security_group (fun _ => ⟨rs, none⟩) =
        Except.ok (rs.map (fun r => r.Instances)).join) := by
  refine ⟨rfl, rfl, fun sgs => rfl, fun rs => rfl⟩

/-- One cluster summary of an EMR `list_clusters` page (the code reads
only `Id`, line 1099). -/
structure ClusterSummary where
  Id : String
  deriving DecidableEq, Repr

/-- An EMR `list_clusters` page: items under `Clusters`, continuation
token under `NextMarker` (the key `EMR.load_services` checks, lines
1102-1105). -/
structure EmrListPage where
  Clusters : List ClusterSummary
  NextMarker : Option String
  deriving DecidableEq, Repr

/-- The states `EMR.load_services` filters its cluster listing by
(services.py lines 1079-1087; the terminated states are commented out in
the source). -/
def emr_cluster_states : List String :=
  ["STARTING", "BOOTSTRAPPING", "RUNNING", "WAITING"]

/-- The `while next_token != None` loop of `EMR.load_services`
(services.py lines 1107-1114): each iteration re-calls `list_clusters`
with `Marker=next_token` and extends the ids, but the body never
reassigns `next_token`, so the loop condition never changes; the fuel
counts remaining iterations and exhaustion (`none`) marks
non-termination. -/
def emr_collect_loop (list_clusters : List String → Option String → EmrListPage)
    (next_token : String) (cluster_ids : List String) :
    Nat → Option (List String)
  | 0 => none
  | Nat.succ fuel =>
      let cluster_list_response :=
        list_clusters emr_cluster_states (some next_token)
      let cluster_ids :=
        cluster_ids ++ cluster_list_response.Clusters.map (fun c => c.Id)
      emr_collect_loop list_clusters next_token cluster_ids fuel

/-- The cluster-id collection phase of `EMR.load_services` (services.py
lines 1092-1114): first call without a marker, then the loop above while
the first page carried a `NextMarker`. -/
def emr_collect_cluster_ids
    (list_clusters : List String → Option String → EmrListPage)
    (fuel : Nat) : Option (List String) :=
  let cluster_list_response := list_clusters emr_cluster_states none
  let cluster_ids := cluster_list_response.Clusters.map (fun c => c.Id)
  match cluster_list_response.NextMarker with
  | none => some cluster_ids
  | some next_token => emr_collect_loop list_clusters next_token cluster_ids fuel

/-- A 2-page EMR listing: page one carries marker m, the page fetched
with marker m carries no marker at all. -/
def emrPages2 (_states : List String) (marker : Option String) : EmrListPage :=
  if marker = none then ⟨[⟨"j-1"⟩], some "m"⟩ else ⟨[⟨"j-2"⟩], none⟩

theorem emr_collect_loop_emrPages2_none (next_token : String) :
    ∀ (fuel : Nat) (cluster_ids : List String),
      emr_collect_loop emrPages2 next_token cluster_ids fuel = none := by
  intro fuel
  induction fuel with
  | zero => intro cluster_ids; rfl
  | succ n ih => intro cluster_ids; exact ih _

/-- C4 fails on the code: on a 2-page listing whose second page returns
no continuation token, EMR's cluster-listing loop never terminates
(returns `none` for every fuel bound), because the loop body never
reassigns `next_token`; a tokenless first page is the only sequence it
finishes. -/
theorem emr_pagination_loop_never_returns :
    (∀ (fuel : Nat), emr_collect_cluster_ids emrPages2 fuel = none) ∧
    (∀ (clusters : List ClusterSummary) (fuel : Nat),
      emr_collect_cluster_ids (fun _ _ => ⟨clusters, none⟩) fuel =
        some (clusters.map (fun c => c.Id))) := by
  constructor
  · intro fuel
    show emr_collect_loop emrPages2 "m" _ fuel = none
    exact emr_collect_loop_emrPages2_none "m" fuel _
  · intro clusters fuel
    rfl

/-! ## ECS describe batching (C5) -/

/-- `ECS.lookup_batch_size` (services.py line 564): the documented
`describe_services` limit of 10 ARNs per call. -/
def lookup_batch_size : Nat := 10

/-- Python `range(0, stop, step)` for positive `step`. -/
def pyRangeStep (stop step : Nat) : List Nat :=
  List.range' 0 ((stop + step - 1) / step) step

/-- The ARN batches `ECS.load_services` passes to successive
`describe_services` calls for one cluster (services.py lines 621-635):
for each index of `range(0, len, batch)`, slice `service_arns[index:]`
when fewer than a full batch remains, else slice
`service_arns[index : lookup_batch_size]` — the literal upper bound the
source uses. -/
def ecs_describe_batches (service_arns : List String) : List (List String) :=
  let service_arns_len := service_arns.length
  (pyRangeStep service_arns_len lookup_batch_size).map (fun service_arn_index =>
    if service_arns_len - service_arn_index < lookup_batch_size then
      service_arns.drop service_arn_index
    else
      (service_arns.take lookup_batch_size).drop service_arn_index)

/-- A cluster with 20 listed service ARNs, svc0 .. svc19. -/
def ecsArns20 : List String :=
  (List.range 20).map (fun i => String.append "svc" (toString i))

/-- C5 fails on the code: with 20 listed ARNs the batches are
`arns[0:10]` and then `arns[10:10] = []`, because the full-batch slice
uses the constant upper bound `lookup_batch_size` instead of
`index + lookup_batch_size`: ARNs svc10 .. svc19 appear in no describe
call and are omitted from the index-building pass (svc10 shown).
Listings of fewer than 20 ARNs happen to batch correctly, as the second
conjunct shows for 11. -/
theorem ecs_batching_omits_services :
    ecs_describe_batches ecsArns20 = [ecsArns20.take 10, []] ∧
    ("svc10" ∈ ecsArns20 ∧ "svc10" ∉ (ecs_describe_batches ecsArns20).join) ∧
    (ecs_describe_batches (ecsArns20.take 11)).join = ecsArns20.take 11 := by
  refine ⟨by decide, ⟨by decide, by decide⟩, by decide⟩

/-! ## The EMR index and its cluster states (C9) -/

/-- The `Ec2InstanceAttributes` sub-dict of a described EMR cluster:
master and slave managed groups are read unconditionally, the other
three keys behind `in keys()` checks (services.py lines 1122-1139). -/
structure EmrEc2InstanceAttributes where
  EmrManagedMasterSecurityGroup : String
  EmrManagedSlaveSecurityGroup : String
  ServiceAccessSecurityGroup : Option String
  AdditionalMasterSecurityGroups : Option (List String)
  AdditionalSlaveSecurityGroups : Option (List String)
  deriving DecidableEq, Repr

/-- A described EMR cluster (`describe_cluster` response's `Cluster`).
`State` is the cluster's lifecycle state (under `Status` in the raw
response); the load step never reads it, the listing filter constrains
it. -/
structure EmrCluster where
  Id : String
  Name : String
  State : String
  Ec2InstanceAttributes : EmrEc2InstanceAttributes
  deriving DecidableEq, Repr

/-- The security-group IDs `EMR.load_services` assembles per cluster
(services.py lines 1117-1139): managed master, managed slave, optional
service-access group, optional additional master and slave lists. -/
def emr_security_group_ids (cluster : EmrCluster) : List String :=
  let ec2_attributes := cluster.Ec2InstanceAttributes
  [ec2_attributes.EmrManagedMasterSecurityGroup,
   ec2_attributes.EmrManagedSlaveSecurityGroup]
    ++ (match ec2_attributes.ServiceAccessSecurityGroup with
        | some security_group => [security_group]
        | none => [])
    ++ ec2_attributes.AdditionalMasterSecurityGroups.getD []
    ++ ec2_attributes.AdditionalSlaveSecurityGroups.getD []

/-- `EMR.load_services` (services.py lines 1089-1149): collect cluster
ids from the filtered listing (pagination as modelled above), describe
each id, and append the described cluster under each of its
security-group IDs. -/
def EMR_load_services
    (list_clusters : List String → Option String → EmrListPage)
    (describe_cluster : String → EmrCluster) (fuel : Nat)
    (idx : Index EmrCluster) : Option (Index EmrCluster) :=
  match emr_collect_cluster_ids list_clusters fuel with
  | none => none
  | some cluster_ids =>
      some (cluster_ids.foldl (fun idx cluster_id =>
        let cluster := describe_cluster cluster_id
        (emr_security_group_ids cluster).foldl
          (fun idx security_group_id => indexAdd idx security_group_id cluster)
          idx) idx)

theorem mem_index_get_indexAdd {α : Type} (idx : Index α) (g' : String)
    (s : α) (g : String) (c : α) (h : c ∈ index_get (indexAdd idx g' s) g) :
    c ∈ index_get idx g ∨ c = s := by
  rw [index_get_eq_getD, indexLookup_indexAdd] at h
  rw [index_get_eq_getD]
  by_cases hg : g = g'
  · rw [if_pos hg] at h
    simp only [Option.getD_some] at h
    rcases List.mem_append.mp h with h' | h'
    · subst hg; exact Or.inl h'
    · exact Or.inr (List.mem_singleton.mp h')
  · rw [if_neg hg] at h
    exact Or.inl h

theorem mem_index_get_foldl_keys {α : Type} (gs : List String) (s : α)
    (g : String) (c : α) :
    ∀ (idx : Index α),
      c ∈ index_get (gs.foldl (fun idx g'' => indexAdd idx g'' s) idx) g →
      c ∈ index_get idx g ∨ c = s := by
  induction gs with
  | nil => intro idx h; exact Or.inl h
  | cons a as ih =>
      intro idx h
      rcases ih (indexAdd idx a s) h with h' | h'
      · exact mem_index_get_indexAdd idx a s g c h'
      · exact Or.inr h'

theorem mem_index_get_emr_fold
    (describe_cluster : String → EmrCluster) (g : String) (c : EmrCluster) :
    ∀ (cluster_ids : List String) (idx : Index EmrCluster),
      c ∈ index_get (cluster_ids.foldl (fun idx cluster_id =>
        (emr_security_group_ids (describe_cluster cluster_id)).foldl
          (fun idx security_group_id =>
            indexAdd idx security_group_id (describe_cluster cluster_id))
          idx) idx) g →
      c ∈ index_get idx g ∨ ∃ id ∈ cluster_ids, c = describe_cluster id := by
  intro cluster_ids
  induction cluster_ids with
  | nil => intro idx h; exact Or.inl h
  | cons i is ih =>
      intro idx h
      rcases ih _ h with h' | h'
      · rcases mem_index_get_foldl_keys _ _ g c idx h' with h'' | h''
        · exact Or.inl h''
        · exact Or.inr ⟨i, List.mem_cons_self i is, h''⟩
      · rcases h' with ⟨id, hid, hc⟩
        exact Or.inr ⟨id, List.mem_cons_of_mem i hid, hc⟩

theorem emr_collect_loop_sources
    (list_clusters : List String → Option String → EmrListPage)
    (next_token : String) (id : String) :
    ∀ (fuel : Nat) (acc : List String) (ids : List String),
      emr_collect_loop list_clusters next_token acc fuel = some ids →
      id ∈ ids →
      id ∈ acc ∨ ∃ (marker : Option String),
        id ∈ (list_clusters emr_cluster_states marker).Clusters.map
          (fun c => c.Id) := by
  intro fuel
  induction fuel with
  | zero => intro acc ids h; exact absurd h (by simp [emr_collect_loop])
  | succ n ih =>
      intro acc ids h hid
      rcases ih _ ids h hid with h' | h'
      · rcases List.mem_append.mp h' with h'' | h''
        · exact Or.inl h''
        · exact Or.inr ⟨some next_token, h''⟩
      · exact Or.inr h'

theorem emr_collect_cluster_ids_sources
    (list_clusters : List String → Option String → EmrListPage)
    (fuel : Nat) (ids : List String) (id : String)
    (h : emr_collect_cluster_ids list_clusters fuel = some ids)
    (hid : id ∈ ids) :
    ∃ (marker : Option String),
      id ∈ (list_clusters emr_cluster_states marker).Clusters.map
        (fun c => c.Id) := by
  unfold emr_collect_cluster_ids at h
  dsimp only at h
  rcases hm : (list_clusters emr_cluster_states none).NextMarker with _ | t
  · rw [hm] at h
    refine ⟨none, ?_⟩
    have := Option.some.inj h
    rw [← this] at hid
    exact hid
  · rw [hm] at h
    rcases emr_collect_loop_sources list_clusters t id fuel _ ids h hid with h' | h'
    · exact ⟨none, h'⟩
    · exact h'

/-- C9: the EMR load step requests the cluster listing filtered to
exactly the four states STARTING, BOOTSTRAPPING, RUNNING, WAITING, so
whenever it completes and the listing and describe collaborators agree
(every id listed under that filter describes to a cluster in one of
those states), every cluster in every index bucket is in one of the four
states — a terminated or terminating cluster never appears. -/
theorem emr_index_only_active_states
    (list_clusters : List String → Option String → EmrListPage)
    (describe_cluster : String → EmrCluster) (fuel : Nat)
    (idx' : Index EmrCluster)
    (hload : EMR_load_services list_clusters describe_cluster fuel [] = some idx')
    (hapi : ∀ (marker : Option String) (id : String),
      id ∈ (list_clusters emr_cluster_states marker).Clusters.map (fun c => c.Id) →
      (describe_cluster id).State ∈ emr_cluster_states) :
    emr_cluster_states = ["STARTING", "BOOTSTRAPPING", "RUNNING", "WAITING"] ∧
    ∀ (g : String) (cluster : EmrCluster),
      cluster ∈ index_get idx' g → cluster.State ∈ emr_cluster_states := by
  refine ⟨rfl, ?_⟩
  intro g cluster hmem
  unfold EMR_load_services at hload
  rcases hc : emr_collect_cluster_ids list_clusters fuel with _ | cluster_ids
  · rw [hc] at hload; exact absurd hload (by simp)
  · rw [hc] at hload
    have hidx := Option.some.inj hload
    rw [← hidx] at hmem
    rcases mem_index_get_emr_fold describe_cluster g cluster cluster_ids [] hmem with h | h
    · exact absurd h (by simp [index_get, indexLookup])
    · rcases h with ⟨id, hid, hcl⟩
      rcases emr_collect_cluster_ids_sources list_clusters fuel cluster_ids id hc hid with ⟨marker, hms⟩
      rw [hcl]
      exact hapi marker id hms

/-- A one-page, one-cluster EMR listing used to witness C9. -/
def emrListingW (_states : List String) (_marker : Option String) : EmrListPage :=
  ⟨[⟨"j-1"⟩], none⟩

/-- Every id describes to the same RUNNING cluster attached to sg-m and
sg-s. -/
def emrDescribeW (id : String) : EmrCluster :=
  ⟨id, "cluster-one", "RUNNING", ⟨"sg-m", "sg-s", none, none, none⟩⟩

/-- The index the witness load builds. -/
def emrIdxW : Index EmrCluster :=
  [("sg-m", [emrDescribeW "j-1"]), ("sg-s", [emrDescribeW "j-1"])]

theorem emr_index_only_active_states_witness :
    emr_cluster_states = ["STARTING", "BOOTSTRAPPING", "RUNNING", "WAITING"] ∧
    (emrDescribeW "j-1").State ∈ emr_cluster_states := by
  have h := emr_index_only_active_states emrListingW emrDescribeW 0 emrIdxW
    (by decide)
    (fun marker id hid => by
      have hj : id = "j-1" := by simpa [emrListingW] using hid
      rw [hj]; decide)
  exact ⟨h.1, h.2 "sg-m" (emrDescribeW "j-1") (by decide)⟩

/-! ## The association driver (`get_associations`, C8) -/

/-- The fields of a security group the driver reads. -/
structure SecurityGroupInfo where
  GroupId : String
  GroupName : String
  deriving DecidableEq, Repr

/-- `subclass.__name__` for each regional service class. -/
def regional_service_name : ServiceType → String
  | ServiceType.EC2 => "EC2"
  | ServiceType.ECS => "ECS"
  | ServiceType.ALB => "ALB"
  | ServiceType.RDS => "RDS"
  | ServiceType.Redshift => "Redshift"
  | ServiceType.Lambda => "Lambda"
  | ServiceType.ElastiCache => "ElastiCache"
  | ServiceType.DMS => "DMS"
  | ServiceType.EMR => "EMR"

/-- `data_headers` as `setup` builds it
(map_security_groups_to_services.py lines 66-72): three fixed headers
(the third header's misspelling is the source's) followed by the leaf
subclass names of `RegionalService` in class-definition order. -/
def data_headers : List String :=
  ["Security Group ID", "Security Group Name", "Securty Group Region",
   "EC2", "ECS", "ALB", "RDS", "Redshift", "Lambda", "ElastiCache", "DMS", "EMR"]

/-- Python `list.index` (first position of `x`; every name looked up in
the driver is a header, so the raising branch is never reached). -/
def py_list_index (x : String) : List String → Nat
  | [] => 0
  | y :: ys => if y = x then 0 else py_list_index x ys + 1

/-- The column `data_headers.index(regional_service.__name__)` the driver
writes each service cell to. -/
def service_column (t : ServiceType) : Nat :=
  py_list_index (regional_service_name t) data_headers

/-- One iteration of the per-security-group loop of `get_associations`
(map_security_groups_to_services.py lines 99-120): start from
`[""] * len(data_headers)`, fill the three identity cells, then for each
classified service type overwrite its column with the line-break-joined
display names. -/
def build_record (region : String) (security_group : SecurityGroupInfo)
    (types : List ServiceType) (names : ServiceType → List String) :
    List String :=
  let new_record := (List.replicate data_headers.length "").set 0 security_group.GroupId
  let new_record := new_record.set 1 security_group.GroupName
  let new_record := new_record.set 2 region
  types.foldl (fun new_record regional_service =>
    new_record.set (service_column regional_service)
      (String.intercalate "\n" (names regional_service))) new_record

/-- `get_associations` (map_security_groups_to_services.py lines
79-127) with the collaborators passed in: the region's security groups,
each group's network interfaces, and each service type's display-name
query; one record is appended per security group. -/
def get_associations (region : String)
    (security_groups : List SecurityGroupInfo)
    (network_interfaces_for : SecurityGroupInfo → List NetworkInterface)
    (service_names : ServiceType → SecurityGroupInfo → List String) :
    List (List String) :=
  security_groups.map (fun security_group =>
    build_record region security_group
      (get_service_types_from_network_interfaces
        (network_interfaces_for security_group))
      (fun regional_service => service_names regional_service security_group))

theorem service_column_lt : ∀ (t : ServiceType),
    service_column t < data_headers.length := by decide

theorem service_column_ge : ∀ (t : ServiceType), 3 ≤ service_column t := by decide

theorem service_column_inj : ∀ (t t' : ServiceType),
    service_column t = service_column t' → t = t' := by decide

theorem getD_set_self {α : Type} (l : List α) (i : Nat) (a d : α)
    (h : i < l.length) : (l.set i a).getD i d = a := by
  induction l generalizing i with
  | nil => simp at h
  | cons x xs ih =>
      cases i with
      | zero => rfl
      | succ n => exact ih n (Nat.lt_of_succ_lt_succ h)

theorem getD_set_ne {α : Type} (l : List α) (i j : Nat) (a d : α)
    (h : i ≠ j) : (l.set i a).getD j d = l.getD j d := by
  induction l generalizing i j with
  | nil => rfl
  | cons x xs ih =>
      cases i with
      | zero =>
          cases j with
          | zero => exact absurd rfl h
          | succ m => rfl
      | succ n =>
          cases j with
          | zero => rfl
          | succ m => exact ih n m (fun hm => h (by rw [hm]))

theorem getD_replicate_self {α : Type} (n i : Nat) (a : α) :
    (List.replicate n a).getD i a = a := by
  induction n generalizing i with
  | zero => rfl
  | succ m ih =>
      cases i with
      | zero => rfl
      | succ k => exact ih k

theorem getD_map_lt {α β : Type} (f : α → β) (l : List α) (i : Nat)
    (d : α) (d' : β) (h : i < l.length) :
    (l.map f).getD i d' = f (l.getD i d) := by
  induction l generalizing i with
  | nil => simp at h
  | cons x xs ih =>
      cases i with
      | zero => rfl
      | succ n => exact ih n (Nat.lt_of_succ_lt_succ h)

theorem mem_setAdd (s : List ServiceType) (x y : ServiceType) :
    y ∈ setAdd s x ↔ y ∈ s ∨ y = x := by
  unfold setAdd
  by_cases hx : x ∈ s
  · rw [if_pos hx]
    exact ⟨Or.inl, fun h => h.elim id (fun he => he ▸ hx)⟩
  · rw [if_neg hx]
    simp

theorem nodup_setAdd (s : List ServiceType) (x : ServiceType)
    (h : s.Nodup) : (setAdd s x).Nodup := by
  unfold setAdd
  by_cases hx : x ∈ s
  · rwa [if_pos hx]
  · rw [if_neg hx, List.nodup_append_comm]
    exact List.nodup_cons.mpr ⟨hx, h⟩

theorem mem_get_service_types_aux (nis : List NetworkInterface)
    (t : ServiceType) :
    ∀ (acc : List ServiceType),
      t ∈ nis.foldl (fun services_to_lookup network_interface_json =>
        match classify_interface network_interface_json with
        | some s => setAdd services_to_lookup s
        | none => services_to_lookup) acc ↔
      t ∈ acc ∨ ∃ ni ∈ nis, classify_interface ni = some t := by
  induction nis with
  | nil => intro acc; simp
  | cons ni rest ih =>
      intro acc
      rw [List.foldl_cons, ih]
      cases hcl : classify_interface ni with
      | none =>
          simp only [List.exists_mem_cons_iff, hcl]
          constructor
          · exact fun h => h.elim Or.inl (fun he => Or.inr (Or.inr he))
          · rintro (h | h | h)
            · exact Or.inl h
            · exact absurd h (by simp)
            · exact Or.inr h
      | some s =>
          simp only [List.exists_mem_cons_iff, hcl, mem_setAdd]
          constructor
          · rintro ((h | h) | h)
            · exact Or.inl h
            · exact Or.inr (Or.inl (by rw [h]))
            · exact Or.inr (Or.inr h)
          · rintro (h | h | h)
            · exact Or.inl (Or.inl h)
            · exact Or.inl (Or.inr (Option.some.inj h).symm)
            · exact Or.inr h

/-- Membership in the driver's accumulated classification set is exactly
"some interface of the group classifies to this service type". -/
theorem mem_get_service_types (nis : List NetworkInterface) (t : ServiceType) :
    t ∈ get_service_types_from_network_interfaces nis ↔
      ∃ ni ∈ nis, classify_interface ni = some t := by
  rw [get_service_types_from_network_interfaces, mem_get_service_types_aux]
  simp

theorem nodup_get_service_types_aux (nis : List NetworkInterface) :
    ∀ (acc : List ServiceType), acc.Nodup →
      (nis.foldl (fun services_to_lookup network_interface_json =>
        match classify_interface network_interface_json with
        | some s => setAdd services_to_lookup s
        | none => services_to_lookup) acc).Nodup := by
  induction nis with
  | nil => intro acc h; exact h
  | cons ni rest ih =>
      intro acc h
      rw [List.foldl_cons]
      cases hcl : classify_interface ni with
      | none => simpa [hcl] using ih acc h
      | some s => simpa [hcl] using ih _ (nodup_setAdd acc s h)

/-- The accumulated classification set is duplicate-free, so the driver
queries each service type at most once per security group. -/
theorem nodup_get_service_types (nis : List NetworkInterface) :
    (get_service_types_from_network_interfaces nis).Nodup :=
  nodup_get_service_types_aux nis [] List.nodup_nil

theorem foldl_set_cell (names : ServiceType → List String) (t : ServiceType) :
    ∀ (types : List ServiceType) (r : List String),
      r.length = data_headers.length → types.Nodup →
      (types.foldl (fun new_record regional_service =>
          new_record.set (service_column regional_service)
            (String.intercalate "\n" (names regional_service))) r).getD
        (service_column t) "" =
      if t ∈ types then String.intercalate "\n" (names t)
      else r.getD (service_column t) "" := by
  intro types
  induction types with
  | nil => intro r _ _; simp
  | cons t0 rest ih =>
      intro r hr hnd
      rw [List.foldl_cons,
        ih _ (by rw [List.length_set]; exact hr) (List.Nodup.of_cons hnd)]
      by_cases hmem : t ∈ rest
      · simp [hmem, List.mem_cons]
      · by_cases ht : t = t0
        · subst ht
          rw [if_neg hmem,
            getD_set_self _ _ _ _ (by rw [hr]; exact service_column_lt t),
            if_pos (List.mem_cons_self t rest)]
        · have hcol : service_column t0 ≠ service_column t :=
            fun hc => ht (service_column_inj t t0 hc.symm)
          rw [if_neg hmem, getD_set_ne _ _ _ _ _ hcol,
            if_neg (by simp [List.mem_cons, ht, hmem])]

theorem foldl_set_cell_lo (names : ServiceType → List String) (j : Nat)
    (hj : ∀ (t' : ServiceType), service_column t' ≠ j) :
    ∀ (types : List ServiceType) (r : List String),
      (types.foldl (fun new_record regional_service =>
          new_record.set (service_column regional_service)
            (String.intercalate "\n" (names regional_service))) r).getD j "" =
      r.getD j "" := by
  intro types
  induction types with
  | nil => intro r; rfl
  | cons t0 rest ih =>
      intro r
      rw [List.foldl_cons, ih, getD_set_ne _ _ _ _ _ (hj t0)]

theorem build_record_cell (region : String) (security_group : SecurityGroupInfo)
    (types : List ServiceType) (names : ServiceType → List String)
    (t : ServiceType) (hnd : types.Nodup) :
    (build_record region security_group types names).getD (service_column t) "" =
      if t ∈ types then String.intercalate "\n" (names t) else "" := by
  unfold build_record
  rw [foldl_set_cell names t types _
    (by simp [List.length_set, List.length_replicate]) hnd]
  have h0 : (0 : Nat) ≠ service_column t :=
    fun h => by have := service_column_ge t; omega
  have h1 : (1 : Nat) ≠ service_column t :=
    fun h => by have := service_column_ge t; omega
  have h2 : (2 : Nat) ≠ service_column t :=
    fun h => by have := service_column_ge t; omega
  rw [getD_set_ne _ _ _ _ _ h2, getD_set_ne _ _ _ _ _ h1,
    getD_set_ne _ _ _ _ _ h0, getD_replicate_self]

theorem build_record_id_cells (region : String)
    (security_group : SecurityGroupInfo) (types : List ServiceType)
    (names : ServiceType → List String) :
    (build_record region security_group types names).getD 0 "" =
      security_group.GroupId ∧
    (build_record region security_group types names).getD 1 "" =
      security_group.GroupName ∧
    (build_record region security_group types names).getD 2 "" = region := by
  unfold build_record
  refine ⟨?_, ?_, ?_⟩ <;> rw [foldl_set_cell_lo _ _ (by decide)]
  · rw [getD_set_ne _ _ _ _ _ (by decide), getD_set_ne _ _ _ _ _ (by decide),
      getD_set_self _ _ _ _ (by simp [List.length_replicate]; decide)]
  · rw [getD_set_ne _ _ _ _ _ (by decide),
      getD_set_self _ _ _ _ (by simp [List.length_set, List.length_replicate]; decide)]
  · rw [getD_set_self _ _ _ _
      (by simp [List.length_set, List.length_replicate]; decide)]

/-- C8: the driver produces exactly one AssociationRecord per security
group; its classification set is the duplicate-free union of the
classifications of all the group's interfaces (so each service type is
queried at most once per group); the three identity cells hold the group
ID, group name and region; and each service type's cell holds the
line-break-joined display names when the type was classified and the
empty string otherwise. -/
theorem driver_association_record
    (region : String) (security_groups : List SecurityGroupInfo)
    (network_interfaces_for : SecurityGroupInfo → List NetworkInterface)
    (service_names : ServiceType → SecurityGroupInfo → List String)
    (i : Nat) (t : ServiceType) (hi : i < security_groups.length) :
    (get_associations region security_groups network_interfaces_for
        service_names).length = security_groups.length ∧
    (get_service_types_from_network_interfaces
        (network_interfaces_for (security_groups.getD i ⟨"", ""⟩))).Nodup ∧
    (t ∈ get_service_types_from_network_interfaces
        (network_interfaces_for (security_groups.getD i ⟨"", ""⟩)) ↔
      ∃ ni ∈ network_interfaces_for (security_groups.getD i ⟨"", ""⟩),
        classify_interface ni = some t) ∧
    ((get_associations region security_groups network_interfaces_for
        service_names).getD i []).getD 0 "" =
      (security_groups.getD i ⟨"", ""⟩).GroupId ∧
    ((get_associations region security_groups network_interfaces_for
        service_names).getD i []).getD 1 "" =
      (security_groups.getD i ⟨"", ""⟩).GroupName ∧
    ((get_associations region security_groups network_interfaces_for
        service_names).getD i []).getD 2 "" = region ∧
    ((get_associations region security_groups network_interfaces_for
        service_names).getD i []).getD (service_column t) "" =
      (if t ∈ get_service_types_from_network_interfaces
          (network_interfaces_for (security_groups.getD i ⟨"", ""⟩))
       then String.intercalate "\n"
         (service_names t (security_groups.getD i ⟨"", ""⟩))
       else "") := by
  have hrec : (get_associations region security_groups network_interfaces_for
      service_names).getD i [] =
    build_record region (security_groups.getD i ⟨"", ""⟩)
      (get_service_types_from_network_interfaces
        (network_interfaces_for (security_groups.getD i ⟨"", ""⟩)))
      (fun regional_service =>
        service_names regional_service (security_groups.getD i ⟨"", ""⟩)) := by
    unfold get_associations
    exact getD_map_lt _ security_groups i ⟨"", ""⟩ [] hi
  refine ⟨by unfold get_associations; exact List.length_map _ _,
    nodup_get_service_types _, mem_get_service_types _ t, ?_, ?_, ?_, ?_⟩
  · rw [hrec]; exact (build_record_id_cells _ _ _ _).1
  · rw [hrec]; exact (build_record_id_cells _ _ _ _).2.1
  · rw [hrec]; exact (build_record_id_cells _ _ _ _).2.2
  · rw [hrec]; exact build_record_cell _ _ _ _ t (nodup_get_service_types _)

/-- The spec's end-to-end security group sg-abc. -/
def sgAbc : SecurityGroupInfo := ⟨"sg-abc", "test-group"⟩

/-- An interface with `interfaceType = "lambda"`. -/
def niLambda : NetworkInterface := ⟨"lambda", "", [], none⟩

/-- An interface with attached instance i-123 and an RDS-marker
description (the attachment rule precedes the description rules). -/
def niInstanceRds : NetworkInterface :=
  ⟨"interface", "RDSNetworkInterface", [], some ⟨some "i-123"⟩⟩

theorem driver_association_record_witness :
    0 < ([sgAbc] : List SecurityGroupInfo).length ∧
    ((get_associations "eu-west-1" [sgAbc] (fun _ => [niLambda, niInstanceRds])
        (fun _ _ => ["svc"])).length = ([sgAbc] : List SecurityGroupInfo).length ∧
     (get_service_types_from_network_interfaces [niLambda, niInstanceRds]).Nodup ∧
     (ServiceType.Lambda ∈
        get_service_types_from_network_interfaces [niLambda, niInstanceRds] ↔
       ∃ ni ∈ [niLambda, niInstanceRds],
         classify_interface ni = some ServiceType.Lambda) ∧
     ((get_associations "eu-west-1" [sgAbc] (fun _ => [niLambda, niInstanceRds])
        (fun _ _ => ["svc"])).getD 0 []).getD 0 "" = sgAbc.GroupId ∧
     ((get_associations "eu-west-1" [sgAbc] (fun _ => [niLambda, niInstanceRds])
        (fun _ _ => ["svc"])).getD 0 []).getD 1 "" = sgAbc.GroupName ∧
     ((get_associations "eu-west-1" [sgAbc] (fun _ => [niLambda, niInstanceRds])
        (fun _ _ => ["svc"])).getD 0 []).getD 2 "" = "eu-west-1" ∧
     ((get_associations "eu-west-1" [sgAbc] (fun _ => [niLambda, niInstanceRds])
        (fun _ _ => ["svc"])).getD 0 []).getD
          (service_column ServiceType.Lambda) "" =
       (if ServiceType.Lambda ∈
           get_service_types_from_network_interfaces [niLambda, niInstanceRds]
        then String.intercalate "\n" ["svc"] else "")) :=
  ⟨by decide, driver_association_record "eu-west-1" [sgAbc]
    (fun _ => [niLambda, niInstanceRds]) (fun _ _ => ["svc"]) 0
    ServiceType.Lambda (by decide)⟩

end SGMap
